import Mathlib

/-!
Verification of the option-hedging extension (`option_master_ext/engine_ext.py`):
shallow embedding of the `HedgeEngine` and `ChaseOrderEngine` operations, with
theorems settling the specified behaviour against the code.

Conventions: Python floats are embedded as `ℚ`, dictionaries as functions into
`Option`, sets as `Finset String`.  External collaborators (the host engine's
greeks pricing, order-id allocation) are passed in as parameters.  Loops driven
by external events are embedded with explicit fuel / operation lists.
-/

/-! ### Balance-price search (`HedgeEngine.calculate_balance_price`, lines 187-210)

The aggregate position delta as a function of the trial underlying price
(`calculate_pos_delta`, whose greeks come from the external pricing model) is
abstracted as a parameter `pos_delta : ℚ → ℚ`. -/

/-- Loop state of the balance-price search: current trial price, previous trial
price, and the engine's cached balance price for the portfolio being solved. -/
structure BalanceSearchState where
  price : ℚ
  last_price : ℚ
  balance_cache : Option ℚ
  deriving DecidableEq

/-- One iteration of the upward `while True:` loop (delta positive at the
start): raise the trial price by 0.3 percent of itself, recompute delta, and if
delta is now non-positive store the midpoint of the last two trial prices as
the balance price.  The source loop body contains no `break` or `return`. -/
def up_step (pos_delta : ℚ → ℚ) (st : BalanceSearchState) : BalanceSearchState :=
  let last_price := st.price
  let price := st.price + st.price * (3 / 1000)
  let delta := pos_delta price
  if delta ≤ 0 then
    ⟨price, last_price, some ((last_price + price) / 2)⟩
  else
    ⟨price, last_price, st.balance_cache⟩

/-- One iteration of the downward `while True:` loop (delta non-positive at the
start): lower the trial price by 0.3 percent of itself, and if delta is now
non-negative store the midpoint.  Again no `break` or `return` in the body. -/
def down_step (pos_delta : ℚ → ℚ) (st : BalanceSearchState) : BalanceSearchState :=
  let last_price := st.price
  let price := st.price - st.price * (3 / 1000)
  let delta := pos_delta price
  if delta ≥ 0 then
    ⟨price, last_price, some ((last_price + price) / 2)⟩
  else
    ⟨price, last_price, st.balance_cache⟩

/-- Outcome of running the search under a fuel bound: either the function
returned (carrying the final cache) or the loop is still running. -/
inductive CalcBalanceOutcome where
  | returned (balance_cache : Option ℚ)
  | running (st : BalanceSearchState)
  deriving DecidableEq

/-- Fuel-bounded run of the upward loop.  Faithful to the source: since the
loop body never breaks or returns, no amount of fuel produces `returned`. -/
def run_up_loop (pos_delta : ℚ → ℚ) : ℕ → BalanceSearchState → CalcBalanceOutcome
  | 0, st => .running st
  | n + 1, st => run_up_loop pos_delta n (up_step pos_delta st)

/-- Fuel-bounded run of the downward loop. -/
def run_down_loop (pos_delta : ℚ → ℚ) : ℕ → BalanceSearchState → CalcBalanceOutcome
  | 0, st => .running st
  | n + 1, st => run_down_loop pos_delta n (down_step pos_delta st)

/-- `HedgeEngine.calculate_balance_price`: compute delta at the underlying mid
price, then enter the upward loop when delta is positive and the downward loop
otherwise. -/
def calculate_balance_price (pos_delta : ℚ → ℚ) (mid_price : ℚ)
    (balance_cache : Option ℚ) (fuel : ℕ) : CalcBalanceOutcome :=
  if pos_delta mid_price > 0 then
    run_up_loop pos_delta fuel ⟨mid_price, mid_price, balance_cache⟩
  else
    run_down_loop pos_delta fuel ⟨mid_price, mid_price, balance_cache⟩

lemma run_up_loop_ne_returned (pos_delta : ℚ → ℚ) :
    ∀ (n : ℕ) (st : BalanceSearchState) (c : Option ℚ),
      run_up_loop pos_delta n st ≠ CalcBalanceOutcome.returned c := by
  intro n
  induction n with
  | zero => intro st c h; exact CalcBalanceOutcome.noConfusion h
  | succ n ih => intro st c; exact ih (up_step pos_delta st) c

lemma run_down_loop_ne_returned (pos_delta : ℚ → ℚ) :
    ∀ (n : ℕ) (st : BalanceSearchState) (c : Option ℚ),
      run_down_loop pos_delta n st ≠ CalcBalanceOutcome.returned c := by
  intro n
  induction n with
  | zero => intro st c h; exact CalcBalanceOutcome.noConfusion h
  | succ n ih => intro st c; exact ih (down_step pos_delta st) c

/-- C1: the claim says the search "stops and returns" as soon as the recomputed
delta first changes sign, and that under a sign-flip precondition it
terminates.  The code's two `while True:` loops store the midpoint whenever the
sign condition holds but contain no `break` or `return`, so
`calculate_balance_price` never returns — for every delta curve (including ones
whose sign flips on the very first step), every starting mid price, every prior
cache and every fuel bound, the run is still `running`, never `returned`. -/
theorem calculate_balance_price_never_returns
    (pos_delta : ℚ → ℚ) (mid_price : ℚ) (balance_cache : Option ℚ)
    (fuel : ℕ) (c : Option ℚ) :
    calculate_balance_price pos_delta mid_price balance_cache fuel ≠
      CalcBalanceOutcome.returned c := by
  unfold calculate_balance_price
  split
  · exact run_up_loop_ne_returned pos_delta fuel _ c
  · exact run_down_loop_ne_returned pos_delta fuel _ c

/-! ### Timer processing (`HedgeEngine.process_timer_event`, lines 104-117) -/

/-- The two entries of the `HedgeEngine.counters` dict, as set up by
`init_counter` (`check_delta` and `calculate_balance`). -/
structure HedgeCounters where
  check_delta : ℤ
  calculate_balance : ℤ
  deriving DecidableEq

/-- `HedgeEngine.process_timer_event`: reads both counters into locals, runs
`auto_hedge` / `calc_all_balance` when a local exceeds its trigger and zeroes
the local, then increments both locals.  The locals are never assigned back
into `self.counters`.  Returns the (unchanged) stored counters together with
whether `auto_hedge` and `calc_all_balance` ran on this tick. -/
def process_timer_event (check_delta_trigger calc_balance_trigger : ℤ)
    (counters : HedgeCounters) : HedgeCounters × Bool × Bool :=
  let check_delta_counter := counters.check_delta
  let calc_balance_counter := counters.calculate_balance
  let ran_auto_hedge : Bool := decide (check_delta_counter > check_delta_trigger)
  let check_delta_counter := if ran_auto_hedge then 0 else check_delta_counter
  let ran_calc_all : Bool := decide (calc_balance_counter > calc_balance_trigger)
  let calc_balance_counter := if ran_calc_all then 0 else calc_balance_counter
  let _check_delta_counter := check_delta_counter + 1
  let _calc_balance_counter := calc_balance_counter + 1
  -- the incremented locals are dropped: the source never writes them back
  (counters, ran_auto_hedge, ran_calc_all)

/-- Iterate `process_timer_event` over `n` timer ticks, also recording whether
`auto_hedge` ever ran during the ticks. -/
def timer_run (check_delta_trigger calc_balance_trigger : ℤ) :
    ℕ → HedgeCounters → HedgeCounters × Bool
  | 0, counters => (counters, false)
  | n + 1, counters =>
      let r := process_timer_event check_delta_trigger calc_balance_trigger counters
      let rest := timer_run check_delta_trigger calc_balance_trigger n r.1
      (rest.1, r.2.1 || rest.2)

/-- C2: the claim says each tick increases both stored counters by one, with
reset-and-run when a trigger is exceeded.  In the code the counters are read
into locals that are incremented but never written back: every tick leaves the
stored counters exactly as they were, and from the freshly initialized state
(both counters 0, default triggers 5 and 300) any number of ticks leaves the
counters at 0 and never runs the hedge-evaluation pass. -/
theorem process_timer_event_counters_frozen :
    (∀ (tA tB : ℤ) (counters : HedgeCounters),
        (process_timer_event tA tB counters).1 = counters) ∧
    (∀ n : ℕ, timer_run 5 300 n ⟨0, 0⟩ = (⟨0, 0⟩, false)) := by
  constructor
  · intro tA tB counters; rfl
  · intro n
    induction n with
    | zero => rfl
    | succ n ih =>
        have h1 : process_timer_event 5 300 ⟨0, 0⟩ = (⟨0, 0⟩, false, false) := rfl
        simp [timer_run, h1, ih]

/-! ### Order splitting (`ChaseOrderEngine.split_req`, lines 347-361)

Only the volumes matter to the claims: a request is embedded as its volume,
all children sharing the original symbol/direction/offset/price. -/

/-- `ChaseOrderEngine.split_req`: a request at or below the cap is returned
alone; otherwise `divmod(volume, max_volume)` yields `int(max_count)` children
of size `max_volume` plus, when the remainder is nonzero, one child of the
remainder.  Python `divmod(a, b) = (⌊a / b⌋, a - b * ⌊a / b⌋)`. -/
def split_req (max_volume volume : ℚ) : List ℚ :=
  if volume ≤ max_volume then [volume]
  else
    let max_count : ℤ := ⌊volume / max_volume⌋
    let remainder : ℚ := volume - max_volume * max_count
    let req_list := List.replicate max_count.toNat max_volume
    if remainder ≠ 0 then req_list ++ [remainder] else req_list

/-! ### Hedge sizing (`HedgeEngine.calc_hedge_volume` / `action_hedge`, lines 241-266) -/

/-- Python 3 `round` to an integer: round half to even (banker's rounding). -/
def pythonRound (q : ℚ) : ℤ :=
  let n := ⌊q⌋
  let frac := q - (n : ℚ)
  if frac < 1 / 2 then n
  else if 1 / 2 < frac then n + 1
  else if n % 2 = 0 then n else n + 1

/-- `HedgeEngine.calc_hedge_volume`: one synthetic hedge unit carries
`|atm_call.cash_delta| + |atm_put.cash_delta|` of delta; the volume is the
Python-rounded quotient of `|portfolio.pos_delta| * hedge_percent` by it. -/
def calc_hedge_volume (call_cash_delta put_cash_delta pos_delta hedge_percent : ℚ) : ℤ :=
  let unit_hedge_delta := |call_cash_delta| + |put_cash_delta|
  let to_hedge_volume := |pos_delta| * hedge_percent / unit_hedge_delta
  pythonRound to_hedge_volume

/-- vnpy trade direction (`vnpy.trader.constant.Direction`). -/
inductive TradeDirection where
  | LONG
  | SHORT
  | NET
  deriving DecidableEq

/-- `HedgeEngine.action_hedge`: recompute the hedge volume; when it rounds to
zero, log and return with no order.  Otherwise a long hedge buys the ATM call
and sells the ATM put, a short hedge buys the put and sells the call; any other
direction only logs.  An order is embedded as (is-buy, symbol, volume). -/
def action_hedge (direction : TradeDirection)
    (call_cash_delta put_cash_delta pos_delta hedge_percent : ℚ)
    (call_symbol put_symbol : String) : List (Bool × String × ℤ) :=
  let to_hedge_volume := calc_hedge_volume call_cash_delta put_cash_delta pos_delta hedge_percent
  if to_hedge_volume = 0 then []
  else
    match direction with
    | .LONG => [(true, call_symbol, to_hedge_volume), (false, put_symbol, to_hedge_volume)]
    | .SHORT => [(true, put_symbol, to_hedge_volume), (false, call_symbol, to_hedge_volume)]
    | .NET => []

lemma split_req_canonical (V M : ℚ) (hV : 0 < V) (hM : 0 < M) :
    split_req M V =
      List.replicate (⌊V / M⌋).toNat M ++
        (if V - M * ⌊V / M⌋ ≠ 0 then [V - M * ⌊V / M⌋] else []) := by
  unfold split_req
  by_cases h : V ≤ M
  · rw [if_pos h]
    rcases eq_or_lt_of_le h with hEq | hLt
    · subst hEq
      have h1 : V / V = 1 := div_self (ne_of_gt hV)
      simp [h1]
    · have h0 : (0 : ℚ) < V / M := div_pos hV hM
      have h1 : V / M < 1 := (div_lt_one hM).mpr hLt
      have hf : ⌊V / M⌋ = 0 := by
        rw [Int.floor_eq_zero_iff]
        exact ⟨h0.le, h1⟩
      simp [hf, ne_of_gt hV]
  · rw [if_neg h]
    by_cases hr : V - M * ⌊V / M⌋ = 0
    · simp [hr]
    · simp [hr]

lemma split_req_remainder_bounds (V M : ℚ) (hM : 0 < M) :
    0 ≤ V - M * ⌊V / M⌋ ∧ V - M * ⌊V / M⌋ < M := by
  have hfr : V - M * ⌊V / M⌋ = M * Int.fract (V / M) := by
    have hMV : M * (V / M) = V := by field_simp
    rw [Int.fract, mul_sub, hMV]
  constructor
  · rw [hfr]; exact mul_nonneg hM.le (Int.fract_nonneg _)
  · rw [hfr]; exact mul_lt_of_lt_one_right hM (Int.fract_lt_one _)

/-- C3: for a request volume `V > 0` and cap `M > 0`, `split_req` returns
children whose volumes sum to `V`, each at most `M`, with at most one child
strictly below `M`, and the list is `⌊V / M⌋` children of size `M` plus one
child of the remainder `V - M * ⌊V / M⌋` exactly when that remainder is
nonzero. -/
theorem split_req_spec (V M : ℚ) (hV : 0 < V) (hM : 0 < M) :
    (split_req M V).sum = V ∧
    (∀ v ∈ split_req M V, v ≤ M) ∧
    (split_req M V).countP (fun v => decide (v < M)) ≤ 1 ∧
    split_req M V =
      List.replicate (⌊V / M⌋).toNat M ++
        (if V - M * ⌊V / M⌋ ≠ 0 then [V - M * ⌊V / M⌋] else []) := by
  have hk0 : (0 : ℤ) ≤ ⌊V / M⌋ := Int.floor_nonneg.mpr (le_of_lt (div_pos hV hM))
  obtain ⟨hr0, hrM⟩ := split_req_remainder_bounds V M hM
  have hstruct := split_req_canonical V M hV hM
  have hcast : (((⌊V / M⌋).toNat : ℕ) : ℚ) = ((⌊V / M⌋ : ℤ) : ℚ) := by
    exact_mod_cast congrArg (fun z : ℤ => (z : ℚ)) (Int.toNat_of_nonneg hk0)
  refine ⟨?_, ?_, ?_, hstruct⟩
  · rw [hstruct, List.sum_append, List.sum_replicate, nsmul_eq_mul, hcast]
    by_cases hr : V - M * ⌊V / M⌋ = 0
    · simp only [hr, ne_eq, not_true_eq_false, if_false, List.sum_nil]
      linarith
    · simp only [ne_eq, hr, not_false_eq_true, if_true, List.sum_cons, List.sum_nil]
      ring
  · rw [hstruct]
    intro v hv
    rcases List.mem_append.mp hv with h1 | h2
    · rw [List.eq_of_mem_replicate h1]
    · by_cases hr : V - M * ⌊V / M⌋ = 0
      · simp [hr] at h2
      · simp only [ne_eq, hr, not_false_eq_true, if_true, List.mem_singleton] at h2
        rw [h2]; exact hrM.le
  · rw [hstruct, List.countP_append]
    have h1 : (List.replicate (⌊V / M⌋).toNat M).countP (fun v => decide (v < M)) = 0 := by
      rw [List.countP_eq_zero]
      intro a ha
      rw [List.eq_of_mem_replicate ha]
      simp
    rw [h1, Nat.zero_add]
    refine le_trans (List.countP_le_length _) ?_
    by_cases hr : V - M * ⌊V / M⌋ = 0 <;> simp [hr]

/-- Witness for C3 at `V = 63`, `M = 30` (the cap's source default). -/
theorem split_req_spec_witness :
    (0 : ℚ) < 63 ∧ (0 : ℚ) < 30 ∧ (split_req 30 63).sum = 63 :=
  ⟨by norm_num, by norm_num, (split_req_spec 63 30 (by norm_num) (by norm_num)).1⟩

/-- C7 counterexample: at `pos_delta = -1000`, `hedge_percent = 1/2`, ATM call
cash-delta `5`, ATM put cash-delta `-3`, the quotient is `500 / 8 = 62.5` and
Python's `round` (half to even) gives `62`, not the claimed `63`. -/
theorem calc_hedge_volume_not_63 :
    calc_hedge_volume 5 (-3) (-1000) (1 / 2) = 62 ∧
    calc_hedge_volume 5 (-3) (-1000) (1 / 2) ≠ 63 := by
  constructor <;> norm_num [calc_hedge_volume, pythonRound]

/-- C7 (amended): the hedge volume is the Python (banker's) rounding of
`|pos_delta| * hedge_percent / (|call.cash_delta| + |put.cash_delta|)`; at the
claim's concrete input the volume is `62` (not 63, since `round(62.5) = 62`);
and when the rounded volume is zero `action_hedge` logs and submits no order. -/
theorem calc_hedge_volume_amended :
    (∀ c p D h : ℚ, calc_hedge_volume c p D h = pythonRound (|D| * h / (|c| + |p|))) ∧
    calc_hedge_volume 5 (-3) (-1000) (1 / 2) = 62 ∧
    (∀ (direction : TradeDirection) (c p D h : ℚ) (cs ps : String),
        calc_hedge_volume c p D h = 0 →
        action_hedge direction c p D h cs ps = []) := by
  refine ⟨fun c p D h => rfl, ?_, ?_⟩
  · norm_num [calc_hedge_volume, pythonRound]
  · intro direction c p D h cs ps h0
    simp [action_hedge, h0]

/-- Witness for C7's amended zero-volume guard: a flat position rounds to
volume 0 and `action_hedge` submits nothing. -/
theorem calc_hedge_volume_amended_witness :
    action_hedge TradeDirection.LONG 5 (-3) 0 (1 / 2) "c" "p" = [] :=
  calc_hedge_volume_amended.2.2 TradeDirection.LONG 5 (-3) 0 (1 / 2) "c" "p"
    (by norm_num [calc_hedge_volume, pythonRound])

/-! ### Cached balance price (`HedgeEngine.get_balance_price`, lines 152-156) -/

/-- Python truthiness of the cached price slot: `None` and `0.0` are falsy. -/
def truthy_price : Option ℚ → Bool
  | none => false
  | some p => decide (p ≠ 0)

/-- `HedgeEngine.get_balance_price`: read the cached price into a local; when
the local is falsy, call `calculate_balance_price` (abstracted as `recompute`,
an update of the cache keyed by portfolio name); then return the local read
before the recomputation, together with the cache. -/
def get_balance_price (recompute : (String → Option ℚ) → String → (String → Option ℚ))
    (balance_prices : String → Option ℚ) (portfolio_name : String) :
    Option ℚ × (String → Option ℚ) :=
  let price := balance_prices portfolio_name
  let updated :=
    if truthy_price price then balance_prices
    else recompute balance_prices portfolio_name
  (price, updated)

/-- C6: the claim says that with no cached value present, `get_balance_price`
computes the balance price and returns the newly computed (cached) value.  The
code returns the local `price` read before the recomputation: whenever the
cache has no entry for the portfolio the call returns `none` (Python `None`),
even though the recomputed cache is stored. -/
theorem get_balance_price_returns_stale
    (recompute : (String → Option ℚ) → String → (String → Option ℚ))
    (balance_prices : String → Option ℚ) (portfolio_name : String)
    (h : balance_prices portfolio_name = none) :
    (get_balance_price recompute balance_prices portfolio_name).1 = none ∧
    (get_balance_price recompute balance_prices portfolio_name).2 =
      recompute balance_prices portfolio_name := by
  simp [get_balance_price, truthy_price, h]

/-- Witness for C6: an empty cache with a recompute that stores `100` for the
queried name still makes `get_balance_price` return `none`. -/
theorem get_balance_price_returns_stale_witness :
    (get_balance_price (fun prices nm => fun x => if x = nm then some 100 else prices x)
        (fun _ => none) "a").1 = none :=
  (get_balance_price_returns_stale (fun prices nm => fun x => if x = nm then some 100 else prices x)
      (fun _ => none) "a" rfl).1

/-! ### Auto-hedge flag (`HedgeEngine.is_auto_hedge`, lines 95-99) -/

/-- `HedgeEngine.is_auto_hedge`: read the flag with `dict.get`; when missing,
store `False` for the name; return the value read by the `get` (Python `None`
when the entry was missing). -/
def is_auto_hedge (auto_hedge_flags : String → Option Bool) (portfolio_name : String) :
    Option Bool × (String → Option Bool) :=
  let flag := auto_hedge_flags portfolio_name
  let updated :=
    match flag with
    | none => fun x => if x = portfolio_name then some false else auto_hedge_flags x
    | some _ => auto_hedge_flags
  (flag, updated)

/-- C8 counterexample: with no entry for the queried name, `is_auto_hedge`
returns `None` (falsy but not a boolean), not the boolean `false` the claim
states. -/
theorem is_auto_hedge_absent_returns_none :
    (is_auto_hedge (fun _ => none) "a").1 = none ∧
    (is_auto_hedge (fun _ => none) "a").1 ≠ some false := by
  constructor <;> simp [is_auto_hedge]

/-- C8 (amended): `is_auto_hedge` returns the stored boolean when an entry
exists (leaving the map unchanged), and returns `none` — Python `None`, falsy
but not the boolean `false` — when no entry exists, while materializing the
entry as `false`; after any call the flag map holds a boolean for the name. -/
theorem is_auto_hedge_amended (auto_hedge_flags : String → Option Bool)
    (portfolio_name : String) :
    ((is_auto_hedge auto_hedge_flags portfolio_name).2 portfolio_name).isSome = true ∧
    (auto_hedge_flags portfolio_name = none →
      (is_auto_hedge auto_hedge_flags portfolio_name).1 = none ∧
      (is_auto_hedge auto_hedge_flags portfolio_name).2 portfolio_name = some false) ∧
    (∀ b, auto_hedge_flags portfolio_name = some b →
      (is_auto_hedge auto_hedge_flags portfolio_name).1 = some b ∧
      (is_auto_hedge auto_hedge_flags portfolio_name).2 = auto_hedge_flags) := by
  unfold is_auto_hedge
  cases hf : auto_hedge_flags portfolio_name with
  | none => simp [hf]
  | some b => simp [hf]

/-- Witness for C8's amended claim at an absent and at a present entry. -/
theorem is_auto_hedge_amended_witness :
    (is_auto_hedge (fun _ => none) "a").2 "a" = some false ∧
    (is_auto_hedge (fun _ => (some true : Option Bool)) "a").1 = some true :=
  ⟨((is_auto_hedge_amended (fun _ => none) "a").2.1 rfl).2,
   ((is_auto_hedge_amended (fun _ => some true) "a").2.2 true rfl).1⟩

/-! ### Chase order engine (`ChaseOrderEngine`, lines 295-403)

The engine's mutable state is the active order-id set and the cancel-counter
dict.  Order ids are allocated by the external `main_engine.send_order`, so the
ids registered by a `send_order` call are passed in as a parameter list (one id
per split child request). -/

/-- vnpy order status (`vnpy.trader.constant.Status`). -/
inductive OrderStatus where
  | SUBMITTING
  | NOTTRADED
  | PARTTRADED
  | ALLTRADED
  | CANCELLED
  | REJECTED
  deriving DecidableEq

/-- `OrderData.is_active` of the host platform: an order is active exactly when
it is submitting, resting unfilled, or partially filled; filled, cancelled and
rejected are terminal (spec §3). -/
def is_active_status : OrderStatus → Bool
  | .SUBMITTING => true
  | .NOTTRADED => true
  | .PARTTRADED => true
  | .ALLTRADED => false
  | .CANCELLED => false
  | .REJECTED => false

/-- The fields of a vnpy `OrderData` event consumed by the engine. -/
structure ChaseOrderData where
  vt_orderid : String
  status : OrderStatus
  volume : ℚ
  traded : ℚ

/-- Mutable state of `ChaseOrderEngine`: `active_orderids` (a set) and
`cancel_counts` (a dict from order id to tick count). -/
structure ChaseState where
  active_orderids : Finset String
  cancel_counts : String → Option ℕ

/-- Initial engine state: no active orders, no counters. -/
def init_chase : ChaseState := ⟨∅, fun _ => none⟩

/-- The registration loop at the end of `ChaseOrderEngine.send_order` (lines
384-390): each order id returned by the external engine for a split child is
added to the active set with a zero cancel-counter. -/
def send_order_ids (s : ChaseState) (new_ids : List String) : ChaseState :=
  new_ids.foldl
    (fun t oid =>
      ⟨insert oid t.active_orderids,
       fun x => if x = oid then some 0 else t.cancel_counts x⟩)
    s

/-- `ChaseOrderEngine.process_order_event`: ignore untracked ids; drop a
terminal order from the active set and its counter (`pop` with default); on a
`CANCELLED` status, resend the unfilled remainder `volume - traded` through
`send_order` (its externally allocated child ids are `resend_ids`).  The second
component lists the volumes of the `send_order` calls issued (the resends). -/
def process_order_event (s : ChaseState) (order : ChaseOrderData)
    (resend_ids : List String) : ChaseState × List ℚ :=
  if order.vt_orderid ∈ s.active_orderids then
    let s1 :=
      if is_active_status order.status then s
      else
        ⟨s.active_orderids.erase order.vt_orderid,
         fun x => if x = order.vt_orderid then none else s.cancel_counts x⟩
    if order.status = OrderStatus.CANCELLED then
      (send_order_ids s1 resend_ids, [order.volume - order.traded])
    else (s1, [])
  else (s, [])

/-- `ChaseOrderEngine.check_cancel`: for every active order id, when its
counter exceeds `cancel_interval` the counter is set to 0 and a cancel request
is issued; in all cases the counter is then incremented.  Each loop iteration
touches only its own id's counter, so the loop is embedded pointwise; a missing
counter would be a Python `KeyError` (unreachable in lockstep states) and is
embedded as leaving the entry absent.  The second component is the set of ids
for which a cancel request was issued. -/
def check_cancel (cancel_interval : ℕ) (s : ChaseState) : ChaseState × Finset String :=
  let new_counts : String → Option ℕ := fun x =>
    if x ∈ s.active_orderids then
      match s.cancel_counts x with
      | some c => some ((if c > cancel_interval then 0 else c) + 1)
      | none => none
    else s.cancel_counts x
  let cancelled := s.active_orderids.filter (fun oid =>
    (match s.cancel_counts oid with
     | some c => decide (c > cancel_interval)
     | none => false) = true)
  (⟨s.active_orderids, new_counts⟩, cancelled)

/-- One externally delivered event, as seen by `ChaseOrderEngine`: a
`send_order` call from the hedge engine (with its externally allocated child
ids), an order-status event (with the ids a cancel-triggered resend would
allocate), or a timer tick. -/
inductive ChaseOp where
  | send (new_ids : List String)
  | orderEvent (order : ChaseOrderData) (resend_ids : List String)
  | timer

/-- State transition of `ChaseOrderEngine` for one event. -/
def chase_step (cancel_interval : ℕ) (s : ChaseState) : ChaseOp → ChaseState
  | .send new_ids => send_order_ids s new_ids
  | .orderEvent order resend_ids => (process_order_event s order resend_ids).1
  | .timer => (check_cancel cancel_interval s).1

/-- Run the engine from the freshly constructed state over a list of events. -/
def chase_run (cancel_interval : ℕ) (ops : List ChaseOp) : ChaseState :=
  ops.foldl (chase_step cancel_interval) init_chase

/-- The lockstep invariant: an id is active exactly when it has a counter. -/
def lockstep (s : ChaseState) : Prop :=
  ∀ oid, oid ∈ s.active_orderids ↔ (s.cancel_counts oid).isSome = true

/-- Iterate `check_cancel` over `n` timer ticks, counting issued cancels. -/
def run_cancel_ticks (cancel_interval : ℕ) : ℕ → ChaseState → ChaseState × ℕ
  | 0, s => (s, 0)
  | n + 1, s =>
      let r := check_cancel cancel_interval s
      let rest := run_cancel_ticks cancel_interval n r.1
      (rest.1, r.2.card + rest.2)

/-- A state holding one tracked order `"o1"` with counter `c`. -/
def single_order_state (c : ℕ) : ChaseState :=
  ⟨{"o1"}, fun x => if x = "o1" then some c else none⟩

lemma send_order_ids_cons (t : ChaseState) (a : String) (as : List String) :
    send_order_ids t (a :: as) =
      send_order_ids
        ⟨insert a t.active_orderids,
         fun x => if x = a then some 0 else t.cancel_counts x⟩ as := rfl

lemma send_order_ids_fresh (new_ids : List String) :
    ∀ (t : ChaseState) (oid : String), oid ∉ new_ids →
      ((oid ∈ (send_order_ids t new_ids).active_orderids ↔ oid ∈ t.active_orderids) ∧
        (send_order_ids t new_ids).cancel_counts oid = t.cancel_counts oid) := by
  induction new_ids with
  | nil => intro t oid _; exact ⟨Iff.rfl, rfl⟩
  | cons a as ih =>
      intro t oid h
      have ha : oid ≠ a := fun hh => h (hh ▸ List.mem_cons_self a as)
      have has : oid ∉ as := fun hh => h (List.mem_cons_of_mem a hh)
      have hih := ih ⟨insert a t.active_orderids,
        fun x => if x = a then some 0 else t.cancel_counts x⟩ oid has
      rw [send_order_ids_cons]
      refine ⟨hih.1.trans ?_, hih.2.trans ?_⟩
      · simp [Finset.mem_insert, ha]
      · simp [ha]

/-- C10: an order-status event whose id is not in the active set leaves the
engine state unchanged and issues no resend, whatever the status. -/
theorem process_order_event_untracked_frame
    (s : ChaseState) (order : ChaseOrderData) (resend_ids : List String)
    (h : order.vt_orderid ∉ s.active_orderids) :
    process_order_event s order resend_ids = (s, []) := by
  simp [process_order_event, h]

/-- Witness for C10: a cancelled-status event for an unknown id at the initial
state is a no-op. -/
theorem process_order_event_untracked_frame_witness :
    process_order_event init_chase ⟨"o1", OrderStatus.CANCELLED, 5, 0⟩ [] =
      (init_chase, []) :=
  process_order_event_untracked_frame init_chase ⟨"o1", OrderStatus.CANCELLED, 5, 0⟩ []
    (by simp [init_chase])

/-- C4 counterexample: a tracked order cancelled after trading its full volume
(remainder `5 - 5 = 0`) still triggers a resend `send_order` call — for volume
0 — where the claim says no resend is issued when the remainder is zero. -/
theorem process_order_event_zero_remainder_resend :
    (process_order_event ⟨{"o1"}, fun x => if x = "o1" then some 0 else none⟩
        ⟨"o1", OrderStatus.CANCELLED, 5, 5⟩ []).2 ≠ [] ∧
    (5 : ℚ) - 5 = 0 := by
  constructor
  · simp [process_order_event]
  · norm_num

/-- C4 (amended): processing a `Cancelled` event for a tracked order removes
its id from the active set and its cancel-counter entry (the resend's freshly
allocated child ids being distinct from it), and issues exactly one resend
`send_order` call for the remainder `volume - traded` — unconditionally, even
when the remainder is zero. -/
theorem process_order_event_cancelled_amended
    (s : ChaseState) (order : ChaseOrderData) (resend_ids : List String)
    (hmem : order.vt_orderid ∈ s.active_orderids)
    (hst : order.status = OrderStatus.CANCELLED)
    (hfresh : order.vt_orderid ∉ resend_ids) :
    order.vt_orderid ∉ (process_order_event s order resend_ids).1.active_orderids ∧
    (process_order_event s order resend_ids).1.cancel_counts order.vt_orderid = none ∧
    (process_order_event s order resend_ids).2 = [order.volume - order.traded] := by
  have hfr := send_order_ids_fresh resend_ids
    ⟨s.active_orderids.erase order.vt_orderid,
     fun x => if x = order.vt_orderid then none else s.cancel_counts x⟩
    order.vt_orderid hfresh
  have hred : process_order_event s order resend_ids =
      (send_order_ids
        ⟨s.active_orderids.erase order.vt_orderid,
         fun x => if x = order.vt_orderid then none else s.cancel_counts x⟩ resend_ids,
       [order.volume - order.traded]) := by
    simp [process_order_event, hmem, hst, is_active_status]
  rw [hred]
  refine ⟨?_, ?_, rfl⟩
  · intro hh
    exact Finset.not_mem_erase _ _ (hfr.1.mp hh)
  · rw [hfr.2]
    simp

/-- Witness for C4's amended claim: id `"o1"` cancelled at 63 requested / 20
traded resends 43 and leaves the active set. -/
theorem process_order_event_cancelled_amended_witness :
    "o1" ∉ (process_order_event ⟨{"o1"}, fun x => if x = "o1" then some 2 else none⟩
        ⟨"o1", OrderStatus.CANCELLED, 63, 20⟩ ["o2"]).1.active_orderids ∧
    (process_order_event ⟨{"o1"}, fun x => if x = "o1" then some 2 else none⟩
        ⟨"o1", OrderStatus.CANCELLED, 63, 20⟩ ["o2"]).2 = [43] := by
  have h := process_order_event_cancelled_amended
    ⟨{"o1"}, fun x => if x = "o1" then some 2 else none⟩
    ⟨"o1", OrderStatus.CANCELLED, 63, 20⟩ ["o2"]
    (by simp) rfl (by simp)
  refine ⟨h.1, h.2.2.trans ?_⟩
  norm_num

lemma lockstep_init : lockstep init_chase := by
  intro oid
  simp [init_chase]

lemma lockstep_send (new_ids : List String) :
    ∀ s, lockstep s → lockstep (send_order_ids s new_ids) := by
  induction new_ids with
  | nil => intro s hs; exact hs
  | cons a as ih =>
      intro s hs
      rw [send_order_ids_cons]
      apply ih
      intro oid
      by_cases h : oid = a
      · subst h; simp
      · simp [h, Finset.mem_insert, hs oid]

lemma lockstep_erase (s : ChaseState) (hs : lockstep s) (oid0 : String) :
    lockstep ⟨s.active_orderids.erase oid0,
      fun x => if x = oid0 then none else s.cancel_counts x⟩ := by
  intro oid
  by_cases h : oid = oid0
  · subst h; simp
  · simp [h, Finset.mem_erase, hs oid]

lemma lockstep_event (order : ChaseOrderData) (resend_ids : List String) :
    ∀ s, lockstep s → lockstep ((process_order_event s order resend_ids).1) := by
  intro s hs
  by_cases hmem : order.vt_orderid ∈ s.active_orderids
  · have hs1 : lockstep (if is_active_status order.status = true then s
        else ⟨s.active_orderids.erase order.vt_orderid,
          fun x => if x = order.vt_orderid then none else s.cancel_counts x⟩) := by
      by_cases hact : is_active_status order.status = true
      · rw [if_pos hact]; exact hs
      · rw [if_neg hact]; exact lockstep_erase s hs order.vt_orderid
    by_cases hc : order.status = OrderStatus.CANCELLED
    · have hred : (process_order_event s order resend_ids).1 =
          send_order_ids (if is_active_status order.status = true then s
            else ⟨s.active_orderids.erase order.vt_orderid,
              fun x => if x = order.vt_orderid then none else s.cancel_counts x⟩)
            resend_ids := by
        simp [process_order_event, hmem, hc]
      rw [hred]
      exact lockstep_send resend_ids _ hs1
    · have hred : (process_order_event s order resend_ids).1 =
          (if is_active_status order.status = true then s
            else ⟨s.active_orderids.erase order.vt_orderid,
              fun x => if x = order.vt_orderid then none else s.cancel_counts x⟩) := by
        simp [process_order_event, hmem, hc]
      rw [hred]
      exact hs1
  · have hred : (process_order_event s order resend_ids).1 = s := by
      simp [process_order_event, hmem]
    rw [hred]
    exact hs

lemma lockstep_timer (cancel_interval : ℕ) (s : ChaseState) (hs : lockstep s) :
    lockstep ((check_cancel cancel_interval s).1) := by
  intro oid
  show oid ∈ s.active_orderids ↔ _
  by_cases h : oid ∈ s.active_orderids
  · rcases Option.isSome_iff_exists.mp ((hs oid).mp h) with ⟨c, hc⟩
    simp [check_cancel, h, hc]
  · have hc : (check_cancel cancel_interval s).1.cancel_counts oid =
        s.cancel_counts oid := by
      simp [check_cancel, h]
    rw [hc]
    exact hs oid

/-- C9: starting from the freshly constructed engine and running any sequence
of operations (order submissions with their allocated child ids, order-status
events including cancel-triggered resends, timer ticks), the active order-id
set and the key set of the cancel-counter map stay in lockstep: an id is
active exactly when it has a counter entry. -/
theorem chase_lockstep_invariant (cancel_interval : ℕ) (ops : List ChaseOp) :
    lockstep (chase_run cancel_interval ops) := by
  have h : ∀ s, lockstep s →
      lockstep (List.foldl (chase_step cancel_interval) s ops) := by
    induction ops with
    | nil => intro s hs; exact hs
    | cons op ops ih =>
        intro s hs
        apply ih
        cases op with
        | send new_ids => exact lockstep_send new_ids s hs
        | orderEvent order resend_ids => exact lockstep_event order resend_ids s hs
        | timer => exact lockstep_timer cancel_interval s hs
  exact h init_chase lockstep_init

lemma check_cancel_single (cancel_interval c : ℕ) :
    check_cancel cancel_interval (single_order_state c) =
      (single_order_state ((if c > cancel_interval then 0 else c) + 1),
       if c > cancel_interval then {"o1"} else ∅) := by
  unfold check_cancel single_order_state
  simp only [Prod.mk.injEq, ChaseState.mk.injEq]
  refine ⟨⟨trivial, ?_⟩, ?_⟩
  · funext x
    by_cases hx : x = "o1"
    · subst hx; simp
    · simp [hx]
  · rw [Finset.filter_singleton]
    by_cases hc : c > cancel_interval <;> simp [hc]

lemma run_cancel_ticks_add (cancel_interval a b : ℕ) :
    ∀ s, run_cancel_ticks cancel_interval (a + b) s =
      ((run_cancel_ticks cancel_interval b (run_cancel_ticks cancel_interval a s).1).1,
       (run_cancel_ticks cancel_interval a s).2 +
         (run_cancel_ticks cancel_interval b (run_cancel_ticks cancel_interval a s).1).2) := by
  induction a with
  | zero => intro s; simp [run_cancel_ticks]
  | succ a ih =>
      intro s
      have hadd : a + 1 + b = (a + b) + 1 := by omega
      rw [hadd]
      simp only [run_cancel_ticks]
      rw [ih]
      simp [Nat.add_assoc]

lemma run_cancel_ticks_below (cancel_interval : ℕ) :
    ∀ (k j : ℕ), j + k ≤ cancel_interval + 1 →
      run_cancel_ticks cancel_interval k (single_order_state j) =
        (single_order_state (j + k), 0) := by
  intro k
  induction k with
  | zero => intro j _; simp [run_cancel_ticks]
  | succ k ih =>
      intro j h
      have hj : ¬ j > cancel_interval := by omega
      have h1 : check_cancel cancel_interval (single_order_state j) =
          (single_order_state (j + 1), ∅) := by
        rw [check_cancel_single]
        simp [hj]
      simp only [run_cancel_ticks, h1]
      rw [ih (j + 1) (by omega)]
      have hjk : j + 1 + k = j + (k + 1) := by omega
      simp [hjk]

/-- C5 counterexample (at the source default `cancel_interval = 3`): a tracked
order whose counter is 4 gets its cancel issued on this tick, but ends the
tick with counter 1, not 0 (the reset to 0 is followed by the unconditional
increment); and an order tracked for `cancel_interval + 1 = 4` ticks from
counter 0 has triggered no cancel at all (the first cancel only happens on
tick `cancel_interval + 2`). -/
theorem check_cancel_counter_not_reset :
    (check_cancel 3 (single_order_state 4)).1.cancel_counts "o1" = some 1 ∧
    (check_cancel 3 (single_order_state 4)).1.cancel_counts "o1" ≠ some 0 ∧
    (run_cancel_ticks 3 4 (single_order_state 0)).2 = 0 := by
  refine ⟨?_, ?_, ?_⟩
  · rw [check_cancel_single]
    norm_num [single_order_state]
  · rw [check_cancel_single]
    norm_num [single_order_state]
  · rw [run_cancel_ticks_below 3 4 0 (by norm_num)]

/-- C5 (amended): on each timer tick, for every currently active order id with
counter `c`: when `c` exceeds `cancel_interval` exactly one cancel request is
issued for it and its counter is set to 0 and then — like every counter —
incremented, ending the tick at 1; otherwise no cancel is issued and the
counter becomes `c + 1`.  Hence an order active without status updates
triggers its first cancel on tick `cancel_interval + 2`, ending with
counter 1. -/
theorem check_cancel_amended :
    (∀ (cancel_interval : ℕ) (s : ChaseState) (oid : String) (c : ℕ),
        oid ∈ s.active_orderids → s.cancel_counts oid = some c →
        (check_cancel cancel_interval s).1.cancel_counts oid =
            some (if c > cancel_interval then 1 else c + 1) ∧
        (oid ∈ (check_cancel cancel_interval s).2 ↔ c > cancel_interval)) ∧
    (∀ cancel_interval : ℕ,
        run_cancel_ticks cancel_interval (cancel_interval + 2) (single_order_state 0) =
          (single_order_state 1, 1)) := by
  constructor
  · intro cancel_interval s oid c hmem hc
    constructor
    · simp only [check_cancel]
      simp [hmem, hc]
      by_cases hgt : c > cancel_interval <;> simp [hgt]
    · simp [check_cancel, Finset.mem_filter, hmem, hc]
  · intro cancel_interval
    rw [show cancel_interval + 2 = (cancel_interval + 1) + 1 from rfl,
      run_cancel_ticks_add cancel_interval (cancel_interval + 1) 1 (single_order_state 0),
      run_cancel_ticks_below cancel_interval (cancel_interval + 1) 0 (by omega),
      show (0 : ℕ) + (cancel_interval + 1) = cancel_interval + 1 from by omega]
    have hgt : cancel_interval + 1 > cancel_interval := by omega
    have h1 : run_cancel_ticks cancel_interval 1 (single_order_state (cancel_interval + 1)) =
        (single_order_state 1, 1) := by
      simp only [run_cancel_ticks]
      rw [check_cancel_single]
      simp [hgt]
    rw [h1]
    rfl

/-- Witness for C5's amended claim at `cancel_interval = 3`, counter 4. -/
theorem check_cancel_amended_witness :
    (check_cancel 3 (single_order_state 4)).1.cancel_counts "o1" =
        some (if 4 > 3 then 1 else 4 + 1) ∧
    run_cancel_ticks 3 (3 + 2) (single_order_state 0) = (single_order_state 1, 1) :=
  ⟨(check_cancel_amended.1 3 (single_order_state 4) "o1" 4
      (by simp [single_order_state]) (by simp [single_order_state])).1,
   check_cancel_amended.2 3⟩
